import Mathlib

/-!
Shallow embedding of `parsedatetime/context.py`: the `pdtContext` accuracy
bitmask record and the `pdtContextStack` thread-confined stack, together
with theorems settling the specification claims about them.
-/

namespace Parsedatetime

/-- Python exceptions that the module can raise, by class and message/attribute. -/
inductive PyError where
  | keyError (label : String)
  | runtimeError (msg : String)
  | attributeError (attr : String)
  deriving DecidableEq, Repr

/-- `pdtContext`: record holding the accuracy bitmask (`__slots__ = ('accuracy',)`). -/
structure pdtContext where
  accuracy : Nat
  deriving DecidableEq, Repr

namespace pdtContext

def ACU_YEAR : Nat := 1
def ACU_MONTH : Nat := 2
def ACU_WEEK : Nat := 4
def ACU_DAY : Nat := 8
def ACU_HALFDAY : Nat := 16
def ACU_HOUR : Nat := 32
def ACU_MIN : Nat := 64
def ACU_SEC : Nat := 128
def ACU_NOW : Nat := 256

def ACU_DATE : Nat := ACU_YEAR ||| ACU_MONTH ||| ACU_WEEK ||| ACU_DAY
def ACU_TIME : Nat := ACU_HALFDAY ||| ACU_HOUR ||| ACU_MIN ||| ACU_SEC ||| ACU_NOW

/-- The fixed label-to-flag table `_ACCURACY_REVERSE_MAPPING`. -/
def ACCURACY_REVERSE_MAPPING : List (String × Nat) :=
  [("year", ACU_YEAR), ("years", ACU_YEAR),
   ("month", ACU_MONTH), ("months", ACU_MONTH),
   ("week", ACU_WEEK), ("weeks", ACU_WEEK),
   ("day", ACU_DAY), ("days", ACU_DAY),
   ("halfday", ACU_HALFDAY), ("morning", ACU_HALFDAY), ("afternoon", ACU_HALFDAY),
   ("evening", ACU_HALFDAY), ("night", ACU_HALFDAY), ("tonight", ACU_HALFDAY),
   ("midnight", ACU_HALFDAY),
   ("hour", ACU_HOUR), ("hours", ACU_HOUR),
   ("min", ACU_MIN), ("minute", ACU_MIN), ("mins", ACU_MIN), ("minutes", ACU_MIN),
   ("sec", ACU_SEC), ("second", ACU_SEC), ("secs", ACU_SEC), ("seconds", ACU_SEC),
   ("now", ACU_NOW)]

/-- An argument to `updateAccuracy`: either an integer bitmask or a textual label. -/
inductive AccElem where
  | int (n : Nat)
  | label (s : String)
  deriving DecidableEq, Repr

/-- Resolution of one `updateAccuracy` argument: an integer is kept as is,
a label is looked up in the fixed table (`none` models the `KeyError`). -/
def resolve : AccElem → Option Nat
  | .int n => some n
  | .label s => ACCURACY_REVERSE_MAPPING.lookup s

/-- `pdtContext.updateAccuracy(*accuracy)`: iterates over the arguments,
OR-ing each resolved flag into `accuracy` in place; an unresolvable label
raises `KeyError` at that point, leaving the mutations already performed.
The result is the context state when the call returns or the exception
propagates, paired with the raised exception if any. -/
def updateAccuracy : pdtContext → List AccElem → pdtContext × Option PyError
  | ctx, [] => (ctx, none)
  | ctx, .int n :: rest => updateAccuracy ⟨ctx.accuracy ||| n⟩ rest
  | ctx, .label s :: rest =>
    match ACCURACY_REVERSE_MAPPING.lookup s with
    | some n => updateAccuracy ⟨ctx.accuracy ||| n⟩ rest
    | none => (ctx, some (.keyError s))

/-- `pdtContext.update(context)`: `self.updateAccuracy(context.accuracy)`. -/
def update (ctx other : pdtContext) : pdtContext :=
  (updateAccuracy ctx [.int other.accuracy]).1

/-- `pdtContext.hasDate`: `bool(self.accuracy & self.ACU_DATE)`. -/
def hasDate (ctx : pdtContext) : Bool :=
  ctx.accuracy &&& ACU_DATE != 0

/-- `pdtContext.hasTime`: `bool(self.accuracy & self.ACU_TIME)`. -/
def hasTime (ctx : pdtContext) : Bool :=
  ctx.accuracy &&& ACU_TIME != 0

/-- `pdtContext.dateTimeFlag`: `int(self.hasDate and 1) | int(self.hasTime and 2)`. -/
def dateTimeFlag (ctx : pdtContext) : Nat :=
  (if ctx.hasDate then 1 else 0) ||| (if ctx.hasTime then 2 else 0)

/-- `pdtContext.hasDateOrTime`: `bool(self.accuracy)`. -/
def hasDateOrTime (ctx : pdtContext) : Bool :=
  ctx.accuracy != 0

/-- The flag value one argument resolves to (`0` as a default for an
unresolvable label, used only where resolution is known to succeed). -/
def resolveD (e : AccElem) : Nat :=
  (resolve e).getD 0

/-- Bitwise union of the flag values a list of arguments resolves to. -/
def resolvedUnion (l : List AccElem) : Nat :=
  l.foldr (fun e acc => resolveD e ||| acc) 0

end pdtContext

namespace pdtContextStack

/-!
One thread's private sequence inside `pdtContextStack` is a Python list
with the top of the stack at the end (`append` / `pop` / `[-1]`).
-/

/-- `pdtContextStack.push(ctx)`: `self.__local.stack.append(ctx)`. -/
def push (stack : List pdtContext) (ctx : pdtContext) : List pdtContext :=
  stack ++ [ctx]

/-- `pdtContextStack.pop()`: `self.__local.stack.pop()` with `IndexError`
on an empty list converted into the sentinel `None`. Returns the popped
value (if any) together with the new list state. -/
def pop (stack : List pdtContext) : Option pdtContext × List pdtContext :=
  match stack.getLast? with
  | some c => (some c, stack.dropLast)
  | none => (none, stack)

/-- `pdtContextStack.last()`: `self.__local.stack[-1]`, with `IndexError`
on an empty list re-raised as `RuntimeError('context stack is empty')`. -/
def last (stack : List pdtContext) : Except PyError pdtContext :=
  match stack.getLast? with
  | some c => .ok c
  | none => .error (.runtimeError "context stack is empty")

/-- `pdtContextStack.isEmpty()`: `not self.__local.stack`. -/
def isEmpty (stack : List pdtContext) : Bool :=
  stack.isEmpty

/-- Pushing a list of contexts in order. -/
def pushAll (stack : List pdtContext) (ctxs : List pdtContext) : List pdtContext :=
  ctxs.foldl push stack

/-- The list state after `n` successive calls to `pop`. -/
def popN : Nat → List pdtContext → List pdtContext
  | 0, stack => stack
  | n + 1, stack => popN n (pop stack).2

end pdtContextStack

/-- `pdtContextStack` with its `threading.local()` storage made explicit:
`localStack t` is the value of the `stack` attribute of `self.__local` as
seen from thread `t`, `none` when the attribute was never set in that
thread (reading it then raises `AttributeError`). -/
structure pdtContextStack where
  localStack : Nat → Option (List pdtContext)

namespace pdtContextStack

/-- `pdtContextStack.__init__` executed by thread `t0`: `self.__local = local()`
followed by `self.__local.stack = []`, which sets the attribute only in the
constructing thread's local storage. -/
def init (t0 : Nat) : pdtContextStack :=
  ⟨fun t => if t = t0 then some [] else none⟩

/-- `push` called from thread `t`: reading `self.__local.stack` raises
`AttributeError` when the attribute is unset in `t`, else appends. -/
def pushT (st : pdtContextStack) (t : Nat) (ctx : pdtContext) :
    Except PyError pdtContextStack :=
  match st.localStack t with
  | none => .error (.attributeError "stack")
  | some s => .ok ⟨fun u => if u = t then some (push s ctx) else st.localStack u⟩

/-- `pop` called from thread `t`. -/
def popT (st : pdtContextStack) (t : Nat) :
    Except PyError (Option pdtContext × pdtContextStack) :=
  match st.localStack t with
  | none => .error (.attributeError "stack")
  | some s =>
    .ok ((pop s).1, ⟨fun u => if u = t then some (pop s).2 else st.localStack u⟩)

/-- `last` called from thread `t`. -/
def lastT (st : pdtContextStack) (t : Nat) : Except PyError pdtContext :=
  match st.localStack t with
  | none => .error (.attributeError "stack")
  | some s => last s

end pdtContextStack

/-! ## Theorems -/

open pdtContext pdtContextStack

lemma nat_or_eq_zero_iff (a b : Nat) : a ||| b = 0 ↔ a = 0 ∧ b = 0 := by
  constructor
  · intro h
    refine ⟨Nat.zero_of_testBit_eq_false fun i => ?_,
      Nat.zero_of_testBit_eq_false fun i => ?_⟩
    · have h2 : (a ||| b).testBit i = false := by rw [h]; exact Nat.zero_testBit i
      rw [Nat.testBit_or] at h2
      exact (Bool.or_eq_false_iff.mp h2).1
    · have h2 : (a ||| b).testBit i = false := by rw [h]; exact Nat.zero_testBit i
      rw [Nat.testBit_or] at h2
      exact (Bool.or_eq_false_iff.mp h2).2
  · rintro ⟨rfl, rfl⟩; rfl

/-- C3: for every context, `hasDate` is true iff at least one of the YEAR,
MONTH, WEEK, DAY bits is set in `accuracy`, `hasTime` is true iff at least
one of the HALFDAY, HOUR, MIN, SEC, NOW bits is set, `hasDateOrTime` is
true iff `accuracy` is nonzero, and `hasDate` and `hasTime` can be
simultaneously true. -/
theorem hasDate_hasTime_hasDateOrTime_characterization :
    (∀ ctx : pdtContext,
      (ctx.hasDate = true ↔
        (ctx.accuracy &&& ACU_YEAR ≠ 0 ∨ ctx.accuracy &&& ACU_MONTH ≠ 0 ∨
         ctx.accuracy &&& ACU_WEEK ≠ 0 ∨ ctx.accuracy &&& ACU_DAY ≠ 0)) ∧
      (ctx.hasTime = true ↔
        (ctx.accuracy &&& ACU_HALFDAY ≠ 0 ∨ ctx.accuracy &&& ACU_HOUR ≠ 0 ∨
         ctx.accuracy &&& ACU_MIN ≠ 0 ∨ ctx.accuracy &&& ACU_SEC ≠ 0 ∨
         ctx.accuracy &&& ACU_NOW ≠ 0)) ∧
      (ctx.hasDateOrTime = true ↔ ctx.accuracy ≠ 0)) ∧
    (∃ ctx : pdtContext, ctx.hasDate = true ∧ ctx.hasTime = true) := by
  constructor
  · intro ctx
    refine ⟨?_, ?_, ?_⟩
    · have hsplit : ctx.accuracy &&& ACU_DATE =
          ctx.accuracy &&& ACU_YEAR ||| ctx.accuracy &&& ACU_MONTH |||
          ctx.accuracy &&& ACU_WEEK ||| ctx.accuracy &&& ACU_DAY := by
        show ctx.accuracy &&& (ACU_YEAR ||| ACU_MONTH ||| ACU_WEEK ||| ACU_DAY) = _
        rw [Nat.and_or_distrib_left, Nat.and_or_distrib_left, Nat.and_or_distrib_left]
      simp only [hasDate, bne_iff_ne, ne_eq, hsplit, nat_or_eq_zero_iff]
      tauto
    · have hsplit : ctx.accuracy &&& ACU_TIME =
          ctx.accuracy &&& ACU_HALFDAY ||| ctx.accuracy &&& ACU_HOUR |||
          ctx.accuracy &&& ACU_MIN ||| ctx.accuracy &&& ACU_SEC |||
          ctx.accuracy &&& ACU_NOW := by
        show ctx.accuracy &&&
            (ACU_HALFDAY ||| ACU_HOUR ||| ACU_MIN ||| ACU_SEC ||| ACU_NOW) = _
        rw [Nat.and_or_distrib_left, Nat.and_or_distrib_left,
          Nat.and_or_distrib_left, Nat.and_or_distrib_left]
      simp only [hasTime, bne_iff_ne, ne_eq, hsplit, nat_or_eq_zero_iff]
      tauto
    · simp [hasDateOrTime, bne_iff_ne]
  · exact ⟨⟨17⟩, by decide, by decide⟩

/-- C8: for every context, `dateTimeFlag` is in `{0, 1, 2, 3}` and equals
`(1 if hasDate else 0) ||| (2 if hasTime else 0)`. -/
theorem dateTimeFlag_legacy_code (ctx : pdtContext) :
    (ctx.dateTimeFlag = 0 ∨ ctx.dateTimeFlag = 1 ∨
     ctx.dateTimeFlag = 2 ∨ ctx.dateTimeFlag = 3) ∧
    ctx.dateTimeFlag =
      (if ctx.hasDate then 1 else 0) ||| (if ctx.hasTime then 2 else 0) := by
  refine ⟨?_, rfl⟩
  cases hD : ctx.hasDate <;> cases hT : ctx.hasTime <;>
    simp [dateTimeFlag, hD, hT]

/-- C10: `updateAccuracy` does not validate integer inputs; a context whose
mask holds only the unnamed bit 512 answers `hasDateOrTime` true while
`hasDate`, `hasTime` are false and `dateTimeFlag` is 0. -/
theorem updateAccuracy_no_int_validation :
    updateAccuracy ⟨0⟩ [.int 512] = (⟨512⟩, none) ∧
    hasDateOrTime ⟨512⟩ = true ∧
    hasDate ⟨512⟩ = false ∧
    hasTime ⟨512⟩ = false ∧
    dateTimeFlag ⟨512⟩ = 0 := by
  refine ⟨?_, ?_, ?_, ?_, ?_⟩ <;> decide

/-- C4: `update` (merge) produces the same mask as `updateAccuracy` on the
other context's raw mask, and merging is associative and commutative at
the mask level. -/
theorem update_merge_assoc_comm (A B C : pdtContext) :
    A.update B = (updateAccuracy A [.int B.accuracy]).1 ∧
    (A.update B).accuracy = A.accuracy ||| B.accuracy ∧
    ((A.update B).update C).accuracy = (A.update (B.update C)).accuracy ∧
    (A.update B).accuracy = (B.update A).accuracy := by
  refine ⟨rfl, rfl, ?_, ?_⟩
  · show A.accuracy ||| B.accuracy ||| C.accuracy =
      A.accuracy ||| (B.accuracy ||| C.accuracy)
    exact Nat.or_assoc _ _ _
  · exact Nat.or_comm _ _

lemma resolvedUnion_nil : resolvedUnion [] = 0 := rfl

lemma resolvedUnion_cons (e : AccElem) (l : List AccElem) :
    resolvedUnion (e :: l) = resolveD e ||| resolvedUnion l := rfl

lemma updateAccuracy_all_resolved (l : List AccElem) :
    ∀ ctx : pdtContext, (∀ e ∈ l, (resolve e).isSome) →
      updateAccuracy ctx l = (⟨ctx.accuracy ||| resolvedUnion l⟩, none) := by
  induction l with
  | nil => intro ctx _; simp [updateAccuracy, resolvedUnion_nil]
  | cons e rest ih =>
    intro ctx h
    have hrest : ∀ x ∈ rest, (resolve x).isSome :=
      fun x hx => h x (List.mem_cons_of_mem _ hx)
    cases e with
    | int n =>
      simp [updateAccuracy, ih _ hrest, resolvedUnion_cons, resolveD, resolve,
        Nat.or_assoc]
    | label s =>
      have hs := h (.label s) (List.mem_cons_self _ _)
      obtain ⟨n, hn⟩ : ∃ n, ACCURACY_REVERSE_MAPPING.lookup s = some n := by
        simpa [resolve, Option.isSome_iff_exists] using hs
      simp [updateAccuracy, hn, ih _ hrest, resolvedUnion_cons, resolveD, resolve,
        Nat.or_assoc]

lemma resolvedUnion_perm {l l' : List AccElem} (p : l.Perm l') :
    resolvedUnion l = resolvedUnion l' := by
  induction p with
  | nil => rfl
  | cons x _ ih => simp [resolvedUnion_cons, ih]
  | swap x y l =>
    simp only [resolvedUnion_cons]
    rw [← Nat.or_assoc, ← Nat.or_assoc, Nat.or_comm (resolveD y) (resolveD x)]
  | trans _ _ ih1 ih2 => rw [ih1, ih2]

/-- C2: a sequence of successful updates ORs the union of all resolved
flags into the mask, independently of order, and updating the same flag
twice yields the same mask as updating it once. -/
theorem updateAccuracy_union_order_idem (ctx : pdtContext) (l l' : List AccElem)
    (hl : ∀ e ∈ l, (resolve e).isSome) (hp : l.Perm l') :
    (updateAccuracy ctx l).2 = none ∧
    (updateAccuracy ctx l).1.accuracy = ctx.accuracy ||| resolvedUnion l ∧
    updateAccuracy ctx l = updateAccuracy ctx l' ∧
    ∀ e : AccElem,
      (updateAccuracy ctx [e, e]).1.accuracy = (updateAccuracy ctx [e]).1.accuracy := by
  have hl' : ∀ e ∈ l', (resolve e).isSome := fun e he => hl e (hp.mem_iff.mpr he)
  rw [updateAccuracy_all_resolved l ctx hl, updateAccuracy_all_resolved l' ctx hl']
  refine ⟨rfl, rfl, by rw [resolvedUnion_perm hp], ?_⟩
  intro e
  cases e with
  | int n => simp [updateAccuracy, Nat.or_assoc, Nat.or_self]
  | label s =>
    cases hcase : ACCURACY_REVERSE_MAPPING.lookup s with
    | none => simp [updateAccuracy, hcase]
    | some n => simp [updateAccuracy, hcase, Nat.or_assoc, Nat.or_self]

theorem updateAccuracy_union_order_idem_witness :
    (updateAccuracy ⟨0⟩ [.label "year", .label "now"]).2 = none ∧
    (updateAccuracy ⟨0⟩ [.label "year", .label "now"]).1.accuracy =
      0 ||| resolvedUnion [.label "year", .label "now"] ∧
    updateAccuracy ⟨0⟩ [.label "year", .label "now"] =
      updateAccuracy ⟨0⟩ [.label "now", .label "year"] ∧
    (updateAccuracy ⟨0⟩ [.label "year", .label "year"]).1.accuracy =
      (updateAccuracy ⟨0⟩ [.label "year"]).1.accuracy := by
  have h := updateAccuracy_union_order_idem ⟨0⟩
    [.label "year", .label "now"] [.label "now", .label "year"]
    (by decide) (by decide)
  exact ⟨h.1, h.2.1, h.2.2.1, h.2.2.2 (.label "year")⟩

lemma updateAccuracy_fail_at (s : String) (rest : List AccElem)
    (hs : ACCURACY_REVERSE_MAPPING.lookup s = none) :
    ∀ (pre : List AccElem) (ctx : pdtContext), (∀ e ∈ pre, (resolve e).isSome) →
      updateAccuracy ctx (pre ++ .label s :: rest) =
        (⟨ctx.accuracy ||| resolvedUnion pre⟩, some (.keyError s)) := by
  intro pre
  induction pre with
  | nil => intro ctx _; simp [updateAccuracy, hs, resolvedUnion_nil]
  | cons e pre ih =>
    intro ctx h
    have hpre : ∀ x ∈ pre, (resolve x).isSome :=
      fun x hx => h x (List.mem_cons_of_mem _ hx)
    cases e with
    | int n =>
      simp [updateAccuracy, ih _ hpre, resolvedUnion_cons, resolveD, resolve,
        Nat.or_assoc]
    | label t =>
      have ht := h (.label t) (List.mem_cons_self _ _)
      obtain ⟨n, hn⟩ : ∃ n, ACCURACY_REVERSE_MAPPING.lookup t = some n := by
        simpa [resolve, Option.isSome_iff_exists] using ht
      simp [updateAccuracy, hn, ih _ hpre, resolvedUnion_cons, resolveD, resolve,
        Nat.or_assoc]

/-- C1 counterexample: `updateAccuracy` on `["year", "bogus_unit"]` raises
the unknown-label error yet the mask has already changed from 0 to 1, so a
failing call does not always leave `accuracy` unchanged. -/
theorem updateAccuracy_unknown_label_cex :
    (updateAccuracy ⟨0⟩ [.label "year", .label "bogus_unit"]).2 =
      some (.keyError "bogus_unit") ∧
    (updateAccuracy ⟨0⟩ [.label "year", .label "bogus_unit"]).1.accuracy = 1 ∧
    (1 : Nat) ≠ 0 := by
  refine ⟨?_, ?_, ?_⟩ <;> decide

/-- C1 amended: a call holding an unresolvable label fails with the
KeyError of that label; the flags of the elements before the failing
element are already OR-ed in (partial mutation), and in particular a call
whose first element is the unknown label leaves the mask unchanged. -/
theorem updateAccuracy_unknown_label_partial (ctx : pdtContext)
    (pre : List AccElem) (s : String) (rest : List AccElem)
    (hpre : ∀ e ∈ pre, (resolve e).isSome)
    (hs : ACCURACY_REVERSE_MAPPING.lookup s = none) :
    updateAccuracy ctx (pre ++ .label s :: rest) =
      (⟨ctx.accuracy ||| resolvedUnion pre⟩, some (.keyError s)) ∧
    updateAccuracy ctx [.label s] = (ctx, some (.keyError s)) := by
  refine ⟨updateAccuracy_fail_at s rest hs pre ctx hpre, ?_⟩
  simp [updateAccuracy, hs]

theorem updateAccuracy_unknown_label_partial_witness :
    updateAccuracy ⟨0⟩ [.label "year", .label "bogus_unit"] =
      (⟨1⟩, some (.keyError "bogus_unit")) ∧
    updateAccuracy ⟨0⟩ [.label "bogus_unit"] =
      (⟨0⟩, some (.keyError "bogus_unit")) :=
  updateAccuracy_unknown_label_partial ⟨0⟩ [.label "year"] "bogus_unit" []
    (by decide) (by decide)

lemma updateAccuracy_testBit_mono (i : Nat) (l : List AccElem) :
    ∀ ctx : pdtContext, ctx.accuracy.testBit i = true →
      (updateAccuracy ctx l).1.accuracy.testBit i = true := by
  induction l with
  | nil => intro ctx h; exact h
  | cons e rest ih =>
    intro ctx h
    cases e with
    | int n =>
      have hstep : (⟨ctx.accuracy ||| n⟩ : pdtContext).accuracy.testBit i = true := by
        simp [Nat.testBit_or, h]
      simpa [updateAccuracy] using ih _ hstep
    | label s =>
      cases hc : ACCURACY_REVERSE_MAPPING.lookup s with
      | none => simpa [updateAccuracy, hc] using h
      | some n =>
        have hstep : (⟨ctx.accuracy ||| n⟩ : pdtContext).accuracy.testBit i = true := by
          simp [Nat.testBit_or, h]
        simpa [updateAccuracy, hc] using ih _ hstep

/-- C5: successful `updateAccuracy` and `update` are monotonic on the
mask: every bit set before the operation remains set after it. -/
theorem accuracy_update_monotonic (ctx : pdtContext) (l : List AccElem)
    (other : pdtContext) (i : Nat)
    (hsucc : (updateAccuracy ctx l).2 = none)
    (hbit : ctx.accuracy.testBit i = true) :
    (updateAccuracy ctx l).1.accuracy.testBit i = true ∧
    (ctx.update other).accuracy.testBit i = true := by
  refine ⟨updateAccuracy_testBit_mono i l ctx hbit, ?_⟩
  show (ctx.accuracy ||| other.accuracy).testBit i = true
  simp [Nat.testBit_or, hbit]

theorem accuracy_update_monotonic_witness :
    (updateAccuracy ⟨1⟩ [.label "now"]).1.accuracy.testBit 0 = true ∧
    (pdtContext.update ⟨1⟩ ⟨2⟩).accuracy.testBit 0 = true :=
  accuracy_update_monotonic ⟨1⟩ [.label "now"] ⟨2⟩ 0 (by decide) (by decide)

/-- C6: on an empty sequence `pop` returns the sentinel `none` (and never
raises) while `last` fails with the empty-stack error; on a non-empty
sequence `pop` removes and returns the top and `last` returns the top
without removing it. -/
theorem stack_pop_last_empty_nonempty :
    pop ([] : List pdtContext) = (none, []) ∧
    last ([] : List pdtContext) = .error (.runtimeError "context stack is empty") ∧
    ∀ (s : List pdtContext) (c : pdtContext),
      pop (s ++ [c]) = (some c, s) ∧ last (s ++ [c]) = .ok c := by
  refine ⟨rfl, rfl, fun s c => ⟨?_, ?_⟩⟩
  · simp [pop]
  · simp [last]

lemma pop_state_length (s : List pdtContext) : (pop s).2.length = s.length - 1 := by
  cases h : s.getLast? with
  | none =>
    have hnil : s = [] := by simpa using h
    subst hnil
    simp [pop]
  | some c => simp [pop, h, List.length_dropLast]

lemma popN_length (k : Nat) :
    ∀ s : List pdtContext, (popN k s).length = s.length - k := by
  induction k with
  | zero => intro s; simp [popN]
  | succ n ih =>
    intro s
    show (popN n (pop s).2).length = s.length - (n + 1)
    rw [ih, pop_state_length]
    omega

lemma pushAll_length (cs : List pdtContext) :
    ∀ s : List pdtContext, (pushAll s cs).length = s.length + cs.length := by
  induction cs with
  | nil => intro s; simp [pushAll]
  | cons c cs ih =>
    intro s
    show (pushAll (push s c) cs).length = s.length + (cs.length + 1)
    rw [ih]
    simp [push]
    omega

/-- C7: strict LIFO ordering within one thread: the concrete
scenario (`peek` raises on empty; after pushing `ctx1` then `ctx2`, `peek`
gives `ctx2`, `pop` gives `ctx2` then `ctx1` then the sentinel, and the
stack is then empty), `push` immediately followed by `pop` returns the
pushed value, and after N pushes followed by fewer than N pops the stack
is non-empty while after equally many pops it is empty. -/
theorem stack_lifo (ctx1 ctx2 : pdtContext) :
    last ([] : List pdtContext) = .error (.runtimeError "context stack is empty") ∧
    last (push (push [] ctx1) ctx2) = .ok ctx2 ∧
    pop (push (push [] ctx1) ctx2) = (some ctx2, [ctx1]) ∧
    pop [ctx1] = (some ctx1, []) ∧
    pop ([] : List pdtContext) = (none, []) ∧
    isEmpty ([] : List pdtContext) = true ∧
    (∀ (s : List pdtContext) (x : pdtContext), pop (push s x) = (some x, s)) ∧
    (∀ (cs : List pdtContext) (M : Nat), M < cs.length →
      isEmpty (popN M (pushAll [] cs)) = false) ∧
    ∀ cs : List pdtContext, isEmpty (popN cs.length (pushAll [] cs)) = true := by
  refine ⟨rfl, rfl, rfl, rfl, rfl, rfl, fun s x => ?_, fun cs M hM => ?_, fun cs => ?_⟩
  · simp [push, pop]
  · have hlen : (popN M (pushAll [] cs)).length = cs.length - M := by
      rw [popN_length, pushAll_length]; simp
    have hne : (popN M (pushAll [] cs)).length ≠ 0 := by rw [hlen]; omega
    cases hp : popN M (pushAll [] cs) with
    | nil => rw [hp] at hne; simp at hne
    | cons a t => simp [isEmpty, hp]
  · have hlen : (popN cs.length (pushAll [] cs)).length = 0 := by
      rw [popN_length, pushAll_length]; simp
    have hnil : popN cs.length (pushAll [] cs) = [] :=
      List.eq_nil_of_length_eq_zero hlen
    simp [isEmpty, hnil]

theorem stack_lifo_witness :
    isEmpty (popN 1 (pushAll [] [⟨1⟩, ⟨2⟩])) = false := by
  have h := stack_lifo ⟨1⟩ ⟨2⟩
  exact h.2.2.2.2.2.2.2.1 [⟨1⟩, ⟨2⟩] 1 (by decide)

/-- C9: the code contradicts the thread-safety claim: `__init__` sets the
thread-local `stack` attribute only in the constructing thread `t0`, so
any other thread `t1` gets `AttributeError` from `push`, `pop` and `last`
instead of operating on its own lazily-initialized empty sequence. -/
theorem contextStack_other_thread_attributeError (t0 t1 : Nat) (h : t1 ≠ t0)
    (c : pdtContext) :
    (init t0).pushT t1 c = .error (.attributeError "stack") ∧
    (init t0).popT t1 = .error (.attributeError "stack") ∧
    (init t0).lastT t1 = .error (.attributeError "stack") := by
  have hl : (init t0).localStack t1 = none := by simp [init, h]
  exact ⟨by simp [pushT, hl], by simp [popT, hl], by simp [lastT, hl]⟩

theorem contextStack_other_thread_attributeError_witness :
    (init 0).pushT 1 ⟨0⟩ = .error (.attributeError "stack") ∧
    (init 0).popT 1 = .error (.attributeError "stack") ∧
    (init 0).lastT 1 = .error (.attributeError "stack") :=
  contextStack_other_thread_attributeError 0 1 (by decide) ⟨0⟩

end Parsedatetime
